import Mathlib

/-!
Verification of the configuration-resolution subsystem of `s3sync`
(`src/cli/cli.go`): the connection-endpoint resolver `parseConn`, the
bandwidth-rate parser `parseBandwith`, and the option pipeline `GetCliArgs`.

Strings are modelled as `List Char`.  Go iterates over strings either by
byte or by rune; all the byte-level scans in this code only branch on ASCII
byte values, so for well-formed UTF-8 input the per-character model agrees
with the per-byte one (a non-ASCII character's bytes are all `>= 0x80` and
are treated uniformly by every scan that appears here).  Go slice indices
produced by `strings.Index`/`strings.LastIndex` are byte indices of an
ASCII character, which denote the same split position as the character
index used here.

`parseConn` delegates URI parsing to Go's `net/url.Parse`; that library
function is embedded below (`urlParse` and its helpers), translated from
the `net/url` source that the repository links against.
-/

abbrev Str := List Char

/-- Go `'a' <= c && c <= 'z' || 'A' <= c && c <= 'Z'` (ASCII letters),
as used by `net/url.getScheme` and `shouldEscape`. -/
def goIsAlpha (c : Char) : Bool :=
  (decide (97 ≤ c.toNat) && decide (c.toNat ≤ 122)) ||
  (decide (65 ≤ c.toNat) && decide (c.toNat ≤ 90))

/-- Go `'0' <= c && c <= '9'` (ASCII digits). -/
def goIsDigitAscii (c : Char) : Bool :=
  decide (48 ≤ c.toNat) && decide (c.toNat ≤ 57)

/-- Go `unicode.IsSpace`: the Latin-1 fast path plus the `White_Space`
code points above Latin-1. -/
def goIsSpace (c : Char) : Bool :=
  decide (c.toNat = 32) || (decide (9 ≤ c.toNat) && decide (c.toNat ≤ 13)) ||
  decide (c.toNat = 133) || decide (c.toNat = 160) ||
  decide (c.toNat = 5760) ||
  (decide (8192 ≤ c.toNat) && decide (c.toNat ≤ 8202)) ||
  decide (c.toNat = 8232) || decide (c.toNat = 8233) ||
  decide (c.toNat = 8239) || decide (c.toNat = 8287) ||
  decide (c.toNat = 12288)

/-- Go `net/url.stringContainsCTLByte`'s per-byte test: a byte below 0x20
or equal to 0x7f.  On characters this coincides with the byte test, since
the UTF-8 bytes of a non-ASCII character are all at least 0x80. -/
def ctlChar (c : Char) : Bool :=
  decide (c.toNat < 32) || decide (c.toNat = 127)

/-- Go `net/url.stringContainsCTLByte`. -/
def stringContainsCTLByte (s : Str) : Bool := s.any ctlChar

/-- Go `net/url.ishex`. -/
def ishex (c : Char) : Bool :=
  goIsDigitAscii c ||
  (decide (97 ≤ c.toNat) && decide (c.toNat ≤ 102)) ||
  (decide (65 ≤ c.toNat) && decide (c.toNat ≤ 70))

/-- Go `net/url.unhex`. -/
def unhex (c : Char) : Nat :=
  if goIsDigitAscii c then c.toNat - 48
  else if decide (97 ≤ c.toNat) && decide (c.toNat ≤ 102) then c.toNat - 87
  else if decide (65 ≤ c.toNat) && decide (c.toNat ≤ 70) then c.toNat - 55
  else 0

/-- Punctuation allowed unescaped in a host by Go `net/url.shouldEscape`
(mode `encodeHost`): the RFC 3986 sub-delims plus `: [ ] < > "` and the
unreserved marks `- _ . ~`. -/
def hostAllowedPunct : Str :=
  [ '!', '$', '&', Char.ofNat 39, '(', ')', '*', '+', ',', ';', '=',
    ':', '[', ']', '<', '>', Char.ofNat 34, '-', '_', '.', '~' ]

/-- Go `net/url.shouldEscape c encodeHost`: true when `c` may not appear
verbatim in a host. -/
def shouldEscapeHost (c : Char) : Bool :=
  !(goIsAlpha c || goIsDigitAscii c || hostAllowedPunct.contains c)

/-- Escape modes of Go `net/url.unescape` that this code exercises.
`encodePath`, `encodeUserPassword` and `encodeFragment` behave identically
inside `unescape` (only `%`-escape well-formedness is checked), so they
share the constructor `plainM`. -/
inductive UMode where
  | hostM : UMode
  | zoneM : UMode
  | plainM : UMode
deriving DecidableEq, Repr

/-- Rejection condition of Go `net/url.unescape` for a `%ab` escape:
hosts may only carry `%25` or escapes of non-ASCII bytes; RFC 6874 zones
may only carry `%25`, an escaped space, or bytes legal in hosts. -/
def pctReject (mode : UMode) (a b : Char) : Bool :=
  (decide (mode = UMode.hostM) && decide (unhex a < 8) &&
    !(decide (a = '2') && decide (b = '5'))) ||
  (decide (mode = UMode.zoneM) && !(decide (a = '2') && decide (b = '5')) &&
    !(decide (unhex a * 16 + unhex b = 32)) &&
    shouldEscapeHost (Char.ofNat (unhex a * 16 + unhex b)))

/-- Rejection condition of Go `net/url.unescape` for a verbatim character:
in host or zone mode, an ASCII byte that `shouldEscape` disallows. -/
def verbatimReject (mode : UMode) (c : Char) : Bool :=
  (decide (mode = UMode.hostM) || decide (mode = UMode.zoneM)) &&
  decide (c.toNat < 128) && shouldEscapeHost c

/-- Go `net/url.unescape`: validates and decodes `%`-escapes.  Go runs a
validation pass and then rebuilds the string; the single recursive pass
here computes the same result.  A decoded byte is represented by the
character of its value (only relevant to escapes of non-ASCII bytes,
which none of the verified properties exercise). -/
def unescapeMode (mode : UMode) : Str → Option Str
  | [] => some []
  | c :: cs =>
    if c = '%' then
      match cs with
      | a :: b :: rest =>
        if ishex a && ishex b then
          if pctReject mode a b then none
          else
            match unescapeMode mode rest with
            | some t => some (Char.ofNat (unhex a * 16 + unhex b) :: t)
            | none => none
        else none
      | _ => none
    else
      if verbatimReject mode c then none
      else
        match unescapeMode mode cs with
        | some t => some (c :: t)
        | none => none

/-- Go `net/url.validOptionalPort`. -/
def validOptionalPort (port : Str) : Bool :=
  match port with
  | [] => true
  | c :: rest => decide (c = ':') && rest.all goIsDigitAscii

/-- Go `net/url.validUserinfo`: RFC 3986 userinfo characters. -/
def validUserinfo (s : Str) : Bool :=
  s.all fun c =>
    goIsAlpha c || goIsDigitAscii c ||
    ([ '-', '.', '_', ':', '~', '!', '$', '&', Char.ofNat 39,
       '(', ')', '*', '+', ',', ';', '=', '%', '@' ] : Str).contains c

/-- Go `net/url.split s sep cutc`: split at the first occurrence of `sep`,
dropping the separator when `cutc` is true. -/
def splitAtChar (sep : Char) (cutc : Bool) : Str → Str × Str
  | [] => ([], [])
  | c :: cs =>
    if c = sep then ([], if cutc then cs else c :: cs)
    else
      match splitAtChar sep cutc cs with
      | (pre, post) => (c :: pre, post)

/-- Split at the last occurrence of `c`: `some (before, after)` with
`s = before ++ c :: after` and `c ∉ after`; `none` when `c ∉ s`.  This
packages Go's `strings.LastIndex` plus the index arithmetic around it. -/
def splitAtLastChar (c : Char) : Str → Option (Str × Str)
  | [] => none
  | x :: xs =>
    match splitAtLastChar c xs with
    | some (b, a) => some (x :: b, a)
    | none => if x = c then some ([], xs) else none

/-- Go `strings.Index s pat` (first occurrence of a substring), as a
character index. -/
def strIndex (pat : Str) : Str → Option Nat
  | [] => if pat.isPrefixOf [] then some 0 else none
  | c :: cs =>
    if pat.isPrefixOf (c :: cs) then some 0
    else
      match strIndex pat cs with
      | some i => some (i + 1)
      | none => none

/-- Go `strings.HasPrefix s pre` (argument order: pattern first). -/
def isPref : Str → Str → Bool
  | [], _ => true
  | _ :: _, [] => false
  | p :: ps, s :: ss => decide (p = s) && isPref ps ss

/-- Go `strings.TrimPrefix s pre`. -/
def trimPref (s pre : Str) : Str :=
  if isPref pre s then s.drop pre.length else s

/-- Go `strings.HasSuffix s [c]` for a single character. -/
def hasSuffixChar : Str → Char → Bool
  | [], _ => false
  | [x], c => decide (x = c)
  | _ :: y :: ys, c => hasSuffixChar (y :: ys) c

/-- Go `strings.Contains s [c]` for a single character. -/
def containsChar (s : Str) (c : Char) : Bool := s.contains c

/-- Go `strings.ToLower` restricted to ASCII.  `net/url` applies it only
to a scheme, whose characters `getScheme` has already confined to ASCII
letters, digits and `+ - .`, where Unicode and ASCII lowering agree. -/
def asciiToLower (s : Str) : Str :=
  s.map fun c =>
    if decide (65 ≤ c.toNat) && decide (c.toNat ≤ 90)
    then Char.ofNat (c.toNat + 32) else c

/-- Result type of Go `net/url.getScheme`: `none` is the
"missing protocol scheme" error, `some (scheme, rest)` the pair it
returns (with `scheme = []` when no scheme is present). -/
def getSchemeAux (original : Str) : Str → Str → Option (Str × Str)
  | _, [] => some ([], original)
  | seen, c :: cs =>
    if goIsAlpha c then getSchemeAux original (seen ++ [c]) cs
    else if goIsDigitAscii c || decide (c = '+') || decide (c = '-') || decide (c = '.') then
      if seen = [] then some ([], original)
      else getSchemeAux original (seen ++ [c]) cs
    else if c = ':' then
      if seen = [] then none else some (seen, cs)
    else some ([], original)

/-- Go `net/url.getScheme`. -/
def getScheme (s : Str) : Option (Str × Str) := getSchemeAux s [] s

/-- The fields of Go `net/url.URL` that `parse` populates (the userinfo
is validated but then discarded by `parseConn`, so it is not recorded). -/
structure URL where
  scheme : Str
  opaque' : Str
  host : Str
  path : Str
  forceQuery : Bool
  rawQuery : Str
  fragment : Str
deriving DecidableEq, Repr

/-- Go `net/url.parseHost`. -/
def parseHost (host : Str) : Option Str :=
  if isPref [ '[' ] host then
    match splitAtLastChar ']' host with
    | none => none
    | some (b, a) =>
      if !validOptionalPort a then none
      else
        match strIndex [ '%', '2', '5' ] b with
        | some zone =>
          match unescapeMode UMode.hostM (b.take zone),
                unescapeMode UMode.zoneM (b.drop zone),
                unescapeMode UMode.hostM (']' :: a) with
          | some h1, some h2, some h3 => some (h1 ++ h2 ++ h3)
          | _, _, _ => none
        | none => unescapeMode UMode.hostM host
  else
    match splitAtLastChar ':' host with
    | none => unescapeMode UMode.hostM host
    | some (_, a) =>
      if validOptionalPort (':' :: a) then unescapeMode UMode.hostM host
      else none

/-- Go `net/url.parseAuthority`, returning the host (the parsed userinfo
is dropped, but its validation failures are preserved). -/
def parseAuthority (authority : Str) : Option Str :=
  match splitAtLastChar '@' authority with
  | none => parseHost authority
  | some (userinfo, hostPart) =>
    match parseHost hostPart with
    | none => none
    | some host =>
      if !validUserinfo userinfo then none
      else if !containsChar userinfo ':' then
        match unescapeMode UMode.plainM userinfo with
        | some _ => some host
        | none => none
      else
        match unescapeMode UMode.plainM (splitAtChar ':' true userinfo).1,
              unescapeMode UMode.plainM (splitAtChar ':' true userinfo).2 with
        | some _, some _ => some host
        | _, _ => none

/-- Tail of Go `net/url.parse`: `URL.setPath` on the remaining string and
assembly of the record. -/
def urlSetHostPath (scheme : Str) (forceQuery : Bool) (rawQuery host rest : Str) :
    Option URL :=
  match unescapeMode UMode.plainM rest with
  | none => none
  | some p =>
    some { scheme := scheme, opaque' := [], host := host, path := p,
           forceQuery := forceQuery, rawQuery := rawQuery, fragment := [] }

/-- Body of Go `net/url.parse` after scheme and query extraction
(`viaRequest = false`): the opaque early return, the
"first path segment cannot contain colon" check, authority parsing, and
`setPath`. -/
def parseRest (scheme : Str) (forceQuery : Bool) (rawQuery rest1 : Str) :
    Option URL :=
  if isPref [ '/' ] rest1 then
    if (!decide (scheme = []) || !isPref [ '/', '/', '/' ] rest1) &&
        isPref [ '/', '/' ] rest1 then
      match parseAuthority (splitAtChar '/' false (rest1.drop 2)).1 with
      | none => none
      | some host =>
        urlSetHostPath scheme forceQuery rawQuery host
          (splitAtChar '/' false (rest1.drop 2)).2
    else urlSetHostPath scheme forceQuery rawQuery [] rest1
  else
    if scheme ≠ [] then
      some { scheme := scheme, opaque' := rest1, host := [], path := [],
             forceQuery := forceQuery, rawQuery := rawQuery, fragment := [] }
    else if containsChar (splitAtChar '/' true rest1).1 ':' then none
    else urlSetHostPath scheme forceQuery rawQuery [] rest1

/-- Query extraction of Go `net/url.parse`: a lone trailing `?` sets
`ForceQuery`; otherwise the string splits at the first `?`. -/
def parseAfterScheme (scheme rest0 : Str) : Option URL :=
  if hasSuffixChar rest0 '?' && !containsChar rest0.dropLast '?' then
    parseRest scheme true [] rest0.dropLast
  else
    parseRest scheme false (splitAtChar '?' true rest0).2
      (splitAtChar '?' true rest0).1

/-- Go `net/url.parse rawURL false` (the fragment has already been cut
off by `Parse`). -/
def urlParseNoFrag (s : Str) : Option URL :=
  if stringContainsCTLByte s then none
  else if s = [ '*' ] then
    some { scheme := [], opaque' := [], host := [], path := [ '*' ],
           forceQuery := false, rawQuery := [], fragment := [] }
  else
    match getScheme s with
    | none => none
    | some (sc, rest0) => parseAfterScheme (asciiToLower sc) rest0

/-- Go `net/url.Parse`: cut the fragment at the first `#`, parse the rest,
then unescape and attach the fragment. -/
def urlParse (rawURL : Str) : Option URL :=
  match urlParseNoFrag (splitAtChar '#' true rawURL).1 with
  | none => none
  | some u =>
    if (splitAtChar '#' true rawURL).2 = [] then some u
    else
      match unescapeMode UMode.plainM (splitAtChar '#' true rawURL).2 with
      | none => none
      | some f => some { u with fragment := f }

/-- `storage.Type` from the `larrabee/s3sync/storage` package: the two
connector kinds used by the CLI. -/
inductive StorageType where
  | TypeS3 : StorageType
  | TypeFS : StorageType
deriving DecidableEq, Repr

/-- `connect` from `src/cli/cli.go` (`Type` is spelled `type'`). -/
structure connect where
  type' : StorageType
  Bucket : Str
  Path : Str
deriving DecidableEq, Repr

/-- `parseConn` from `src/cli/cli.go`: `none` models a non-nil `error`. -/
def parseConn (cStr : Str) : Option connect :=
  match urlParse cStr with
  | none => none
  | some u =>
    if u.scheme = [ 's', '3' ] then
      some { type' := StorageType.TypeS3, Bucket := u.host,
             Path := trimPref u.path [ '/' ] }
    else if u.scheme = [ 'f', 's' ] then
      some { type' := StorageType.TypeFS, Bucket := [],
             Path := trimPref cStr [ 'f', 's', ':', '/', '/' ] }
    else
      some { type' := StorageType.TypeFS, Bucket := [], Path := cStr }

/-- Go `strings.TrimSpace`. -/
def trimSpace (s : Str) : Str :=
  ((s.dropWhile goIsSpace).reverse.dropWhile goIsSpace).reverse

/-- The scanning loop of `parseBandwith` (`src/cli/cli.go` lines
223-241): accumulate digits, skip whitespace, record the last unit
letter's multiplier, and fail on any other character.  `unicode.IsDigit`
accepts every Unicode decimal digit; a non-ASCII digit would be
accumulated by Go and then make `strconv.Atoi` fail, so both models end
in `(0, false)`; here the digit test is the ASCII range and such a
character fails at once. -/
def bandwidthScan : Str → Str → Int → Option (Str × Int)
  | [], digits, multiplier => some (digits, multiplier)
  | r :: rest, digits, multiplier =>
    if goIsDigitAscii r then bandwidthScan rest (digits ++ [r]) multiplier
    else if goIsSpace r then bandwidthScan rest digits multiplier
    else if decide (r = 'k') || decide (r = 'K') then
      bandwidthScan rest digits 1024
    else if decide (r = 'm') || decide (r = 'M') then
      bandwidthScan rest digits (1024 * 1024)
    else if decide (r = 'g') || decide (r = 'G') then
      bandwidthScan rest digits (1024 * 1024 * 1024)
    else none

/-- Two's-complement wrap of an integer into `int64`, the semantics of
Go's machine arithmetic on `int` (64-bit). -/
def wrap64 (x : Int) : Int := (x + 2 ^ 63) % 2 ^ 64 - 2 ^ 63

/-- Go `strconv.Atoi` on a 64-bit platform (= `ParseInt(s, 10, 64)`):
optional sign, ASCII digits, range check. -/
def atoi64 (s : Str) : Option Int :=
  match s with
  | [] => none
  | c :: rest =>
    match (if c = '+' then (false, rest)
           else if c = '-' then (true, rest)
           else (false, s)) with
    | (neg, ds) =>
      if ds = [] then none
      else if ds.all goIsDigitAscii then
        match ds.foldl (fun a d => a * 10 + (d.toNat - 48)) (0 : Nat) with
        | v =>
          if neg then (if v ≤ 2 ^ 63 then some (-(v : Int)) else none)
          else (if v ≤ 2 ^ 63 - 1 then some ((v : Int)) else none)
      else none

/-- `parseBandwith` from `src/cli/cli.go`.  The final `rate * multiplier`
is Go machine-`int` multiplication and therefore wraps. -/
def parseBandwith (s : Str) : Int × Bool :=
  if s = [] then (0, true)
  else
    match bandwidthScan (trimSpace s) [] 1 with
    | none => (0, false)
    | some (digits, multiplier) =>
      match atoi64 digits with
      | none => (0, false)
      | some rate => (wrap64 (rate * multiplier), true)

/-- `onFailAction` from `src/cli/cli.go`. -/
inductive onFailAction where
  | onFailFatal : onFailAction
  | onFailSkip : onFailAction
  | onFailSkipMissing : onFailAction
deriving DecidableEq, Repr

/-- Raw CLI args (`args` in `src/cli/cli.go`), after flag parsing.
Go `uint`/`int64` fields are `Nat`/`Int`. -/
structure args where
  Source : Str
  SourceKey : Str
  SourceSecret : Str
  SourceRegion : Str
  SourceEndpoint : Str
  Target : Str
  TargetKey : Str
  TargetSecret : Str
  TargetRegion : Str
  TargetEndpoint : Str
  S3Retry : Nat
  S3RetryInterval : Nat
  S3Acl : Str
  S3StorageClass : Str
  S3KeysPerReq : Int
  FSFilePerm : Str
  FSDirPerm : Str
  FSDisableXattr : Bool
  FilterExt : List Str
  FilterExtNot : List Str
  FilterCT : List Str
  FilterCTNot : List Str
  FilterMtimeAfter : Int
  FilterMtimeBefore : Int
  FilterModified : Bool
  Workers : Nat
  Debug : Bool
  SyncLog : Bool
  ShowProgress : Bool
  OnFail : Str
  DisableHTTP2 : Bool
  ListBuffer : Nat
  RateLimitObjPerSec : Nat
  RateLimitBandwidth : Str
deriving DecidableEq, Repr

/-- Parsed CLI args (`argsParsed` in `src/cli/cli.go`); the embedded raw
`args` field is spelled `rawArgs`.  `S3RetryInterval` is a
`time.Duration` in nanoseconds, `FSFilePerm`/`FSDirPerm` are
`os.FileMode` bit patterns. -/
structure argsParsed where
  rawArgs : args
  Source : connect
  Target : connect
  S3RetryInterval : Int
  OnFail : onFailAction
  FSFilePerm : Nat
  FSDirPerm : Nat
  RateLimitBandwidth : Int
deriving DecidableEq, Repr

/-- The distinct fatal-diagnostic sites of `GetCliArgs` (each is a
`p.Fail` call or an error return). -/
inductive cliErr where
  | invalidAcl : cliErr
  | invalidOnFail : cliErr
  | invalidBandwidth : cliErr
  | badSourceConn : cliErr
  | badTargetConn : cliErr
  | progressRequiresTTY : cliErr
  | badFilePerm : cliErr
  | badDirPerm : cliErr
  | filterRequiresXattr : cliErr
deriving DecidableEq, Repr

/-- The process environment `GetCliArgs` touches: whether stdout is a
terminal (`isatty.IsTerminal(os.Stdout.Fd())`) and the `GODEBUG`
environment variable. -/
structure Env where
  isTTY : Bool
  godebug : Str
deriving DecidableEq, Repr

/-- The ACL `switch` of `GetCliArgs` (lines 122-141): the closed
vocabulary that does not reach `p.Fail`. -/
def aclAllowed (s : Str) : Bool :=
  decide (s = []) || decide (s = ("private").toList) ||
  decide (s = ("public-read").toList) ||
  decide (s = ("public-read-write").toList) ||
  decide (s = ("aws-exec-read").toList) ||
  decide (s = ("authenticated-read").toList) ||
  decide (s = ("bucket-owner-read").toList) ||
  decide (s = ("bucket-owner-full-control").toList)

/-- The on-fail `switch` of `GetCliArgs` (lines 143-152). -/
def parseOnFail (s : Str) : Option onFailAction :=
  if s = ("fatal").toList then some onFailAction.onFailFatal
  else if s = ("skip").toList then some onFailAction.onFailSkip
  else if s = ("skipmissing").toList then some onFailAction.onFailSkipMissing
  else none

/-- Go `strconv.ParseUint(s, 8, 32)`: octal digits only, value below
`2^32`. -/
def parseUintBase8 (s : Str) : Option Nat :=
  if s = [] then none
  else if s.all (fun c => decide (48 ≤ c.toNat) && decide (c.toNat ≤ 55)) then
    match s.foldl (fun a c => a * 8 + (c.toNat - 48)) (0 : Nat) with
    | v => if v < 2 ^ 32 then some v else none
  else none

/-- `GetCliArgs` from `src/cli/cli.go` after `arg.MustParse` has filled
`rawCli`: the validation pipeline, with `p.Fail`/error returns modelled
as `Except.error` and the `os.Setenv("GODEBUG", ...)` side effect
threaded through `Env`.  Checks run in source order; the first failure
wins. -/
def getCliArgsS (rawCli : args) (env : Env) :
    Except cliErr argsParsed × Env :=
  if !aclAllowed rawCli.S3Acl then (Except.error cliErr.invalidAcl, env)
  else
    match parseOnFail rawCli.OnFail with
    | none => (Except.error cliErr.invalidOnFail, env)
    | some onFail =>
      match parseBandwith rawCli.RateLimitBandwidth with
      | (_, false) => (Except.error cliErr.invalidBandwidth, env)
      | (rate, true) =>
        match parseConn rawCli.Source with
        | none => (Except.error cliErr.badSourceConn, env)
        | some src =>
          match parseConn rawCli.Target with
          | none => (Except.error cliErr.badTargetConn, env)
          | some tgt =>
            if rawCli.ShowProgress && !env.isTTY then
              (Except.error cliErr.progressRequiresTTY, env)
            else
              match parseUintBase8 rawCli.FSFilePerm with
              | none => (Except.error cliErr.badFilePerm, env)
              | some filePerm =>
                match parseUintBase8 rawCli.FSDirPerm with
                | none => (Except.error cliErr.badDirPerm, env)
                | some dirPerm =>
                  match (if rawCli.DisableHTTP2 then
                           { env with
                             godebug := env.godebug ++ ("http2client=0").toList }
                         else env) with
                  | env2 =>
                    if rawCli.FilterModified && rawCli.FSDisableXattr then
                      (Except.error cliErr.filterRequiresXattr, env2)
                    else
                      (Except.ok
                        { rawArgs := rawCli, Source := src, Target := tgt,
                          S3RetryInterval :=
                            wrap64 (wrap64 ((rawCli.S3RetryInterval : Int)) *
                              1000000000),
                          OnFail := onFail, FSFilePerm := filePerm,
                          FSDirPerm := dirPerm,
                          RateLimitBandwidth := rate }, env2)

/-- The default raw args set by `GetCliArgs` lines 105-117 (all other
fields keep their Go zero values). -/
def defaultArgs : args where
  Source := []
  SourceKey := []
  SourceSecret := []
  SourceRegion := ("us-east-1").toList
  SourceEndpoint := []
  Target := []
  TargetKey := []
  TargetSecret := []
  TargetRegion := ("us-east-1").toList
  TargetEndpoint := []
  S3Retry := 0
  S3RetryInterval := 0
  S3Acl := ("private").toList
  S3StorageClass := []
  S3KeysPerReq := 1000
  FSFilePerm := ("0644").toList
  FSDirPerm := ("0755").toList
  FSDisableXattr := false
  FilterExt := []
  FilterExtNot := []
  FilterCT := []
  FilterCTNot := []
  FilterMtimeAfter := 0
  FilterMtimeBefore := 0
  FilterModified := false
  Workers := 16
  Debug := false
  SyncLog := false
  ShowProgress := false
  OnFail := ("fatal").toList
  DisableHTTP2 := false
  ListBuffer := 1000
  RateLimitObjPerSec := 0
  RateLimitBandwidth := []

/-- Whether an `Except` result is a success. -/
def isOkE (r : Except cliErr argsParsed) : Bool :=
  match r with
  | Except.ok _ => true
  | Except.error _ => false

/-! ### Character classes used to state the universally quantified
endpoint claims -/

/-- A character that may appear in the `bucket` of an endpoint written
`s3://bucket/path`: ASCII letters, digits, `- . _`. -/
def isPlainHostChar (c : Char) : Bool :=
  goIsAlpha c || goIsDigitAscii c || decide (c = '-') || decide (c = '.') ||
  decide (c = '_')

/-- A character that may appear in the `path` of an endpoint written
`s3://bucket/path`: anything except control characters and the URI
metacharacters `% ? #`. -/
def isPlainPathChar (c : Char) : Bool :=
  !ctlChar c && !decide (c = '%') && !decide (c = '?') && !decide (c = '#')

/-! ### Helper lemmas -/

theorem not_mem_of_plainHost {bucket : Str}
    (hb : ∀ c ∈ bucket, isPlainHostChar c = true) (x : Char)
    (hx : isPlainHostChar x = false) : x ∉ bucket := by
  intro hm
  have := hb x hm
  rw [hx] at this
  exact Bool.false_ne_true this

theorem not_mem_of_plainPath {path : Str}
    (hp : ∀ c ∈ path, isPlainPathChar c = true) (x : Char)
    (hx : isPlainPathChar x = false) : x ∉ path := by
  intro hm
  have := hp x hm
  rw [hx] at this
  exact Bool.false_ne_true this

theorem plainHost_ctl {c : Char} (h : isPlainHostChar c = true) :
    ctlChar c = false := by
  simp only [isPlainHostChar, goIsAlpha, goIsDigitAscii, Bool.or_eq_true,
    Bool.and_eq_true, decide_eq_true_eq] at h
  rcases h with ((((⟨h1, h2⟩ | ⟨h1, h2⟩) | ⟨h1, h2⟩) | rfl) | rfl) | rfl
  all_goals first
    | decide
    | (simp only [ctlChar, Bool.or_eq_false_iff, decide_eq_false_iff_not]
       omega)

theorem plainHost_noesc {c : Char} (h : isPlainHostChar c = true) :
    shouldEscapeHost c = false := by
  simp only [isPlainHostChar, Bool.or_eq_true, decide_eq_true_eq] at h
  rcases h with ((((h1 | h1) | rfl) | rfl) | rfl)
  all_goals first
    | decide
    | (simp [shouldEscapeHost, h1])

theorem plainPath_facts {c : Char} (h : isPlainPathChar c = true) :
    ctlChar c = false ∧ c ≠ '%' ∧ c ≠ '?' ∧ c ≠ '#' := by
  simp only [isPlainPathChar, Bool.and_eq_true, Bool.not_eq_true',
    decide_eq_false_iff_not] at h
  exact ⟨h.1.1.1, h.1.1.2, h.1.2, h.2⟩

theorem splitAtChar_not_mem (sep : Char) (cutc : Bool) (s : Str)
    (h : sep ∉ s) : splitAtChar sep cutc s = (s, []) := by
  induction s with
  | nil => rfl
  | cons c cs ih =>
    have hc : ¬(c = sep) := fun he => h (he ▸ List.mem_cons_self c cs)
    have hcs : sep ∉ cs := fun hm => h (List.mem_cons_of_mem c hm)
    simp [splitAtChar, hc, ih hcs]

theorem splitAtChar_append (sep : Char) (cutc : Bool) (a b : Str)
    (h : sep ∉ a) :
    splitAtChar sep cutc (a ++ b) =
      (a ++ (splitAtChar sep cutc b).1, (splitAtChar sep cutc b).2) := by
  induction a with
  | nil => simp
  | cons c cs ih =>
    have hc : ¬(c = sep) := fun he => h (he ▸ List.mem_cons_self c cs)
    have hcs : sep ∉ cs := fun hm => h (List.mem_cons_of_mem c hm)
    simp [splitAtChar, hc, ih hcs]

theorem splitAtLastChar_not_mem (c : Char) (s : Str) (h : c ∉ s) :
    splitAtLastChar c s = none := by
  induction s with
  | nil => rfl
  | cons x xs ih =>
    have hx : ¬(x = c) := fun he => h (he ▸ List.mem_cons_self x xs)
    have hxs : c ∉ xs := fun hm => h (List.mem_cons_of_mem x hm)
    simp [splitAtLastChar, ih hxs, hx]

theorem hasSuffixChar_not_mem (s : Str) (c : Char) (h : c ∉ s) :
    hasSuffixChar s c = false := by
  induction s with
  | nil => rfl
  | cons x xs ih =>
    cases xs with
    | nil =>
      have hx : ¬(x = c) := fun he => h (he ▸ List.mem_cons_self x [])
      simp [hasSuffixChar, hx]
    | cons y ys =>
      have hxs : c ∉ y :: ys := fun hm => h (List.mem_cons_of_mem x hm)
      simpa [hasSuffixChar] using ih hxs

theorem containsChar_not_mem (s : Str) (c : Char) (h : c ∉ s) :
    containsChar s c = false := by
  simp only [containsChar, List.contains_eq_any_beq, List.any_eq_false,
    beq_iff_eq]
  intro x hx he
  exact h (he ▸ hx)

theorem isPref_append_self (p r : Str) : isPref p (p ++ r) = true := by
  induction p with
  | nil => rfl
  | cons c cs ih => simp [isPref, ih]

theorem trimPref_append (p r : Str) : trimPref (p ++ r) p = r := by
  simp [trimPref, isPref_append_self, List.drop_left]

theorem isPref_singleton_false (c : Char) (s : Str) (h : c ∉ s) :
    isPref [ c ] s = false := by
  cases s with
  | nil => rfl
  | cons x xs =>
    have hx : ¬(c = x) := fun he => h (he ▸ List.mem_cons_self x xs)
    simp [isPref, hx]

theorem unescapeMode_cons_ne_pct (mode : UMode) (c : Char) (cs : Str)
    (hc : ¬(c = '%')) :
    unescapeMode mode (c :: cs) =
      (if verbatimReject mode c then none
       else
         match unescapeMode mode cs with
         | some t => some (c :: t)
         | none => none) := by
  cases cs with
  | nil => simp [unescapeMode, hc]
  | cons a tl =>
    cases tl with
    | nil => simp [unescapeMode, hc]
    | cons b rest => simp [unescapeMode, hc]

theorem unescape_host_id (s : Str)
    (h : ∀ c ∈ s, isPlainHostChar c = true) :
    unescapeMode UMode.hostM s = some s := by
  induction s with
  | nil => rfl
  | cons c cs ih =>
    have hc := h c (List.mem_cons_self c cs)
    have hcs : ∀ x ∈ cs, isPlainHostChar x = true :=
      fun x hx => h x (List.mem_cons_of_mem c hx)
    have hpct : ¬(c = '%') := by
      intro he
      subst he
      exact absurd hc (by decide)
    have hrej : verbatimReject UMode.hostM c = false := by
      simp [verbatimReject, plainHost_noesc hc]
    simp [unescapeMode_cons_ne_pct _ _ _ hpct, hrej, ih hcs]

theorem unescape_plain_id (s : Str) (h : '%' ∉ s) :
    unescapeMode UMode.plainM s = some s := by
  induction s with
  | nil => rfl
  | cons c cs ih =>
    have hc : ¬(c = '%') := fun he => h (he ▸ List.mem_cons_self c cs)
    have hcs : '%' ∉ cs := fun hm => h (List.mem_cons_of_mem c hm)
    simp [unescapeMode_cons_ne_pct _ _ _ hc, ih hcs, verbatimReject]

theorem parseAuthority_plain (b : Str)
    (hb : ∀ c ∈ b, isPlainHostChar c = true) :
    parseAuthority b = some b := by
  have hat : '@' ∉ b := not_mem_of_plainHost hb '@' (by decide)
  have hbr : '[' ∉ b := not_mem_of_plainHost hb '[' (by decide)
  have hco : ':' ∉ b := not_mem_of_plainHost hb ':' (by decide)
  simp [parseAuthority, splitAtLastChar_not_mem _ _ hat, parseHost,
    isPref_singleton_false _ _ hbr, splitAtLastChar_not_mem _ _ hco,
    unescape_host_id b hb]

theorem getScheme_s3 (r : Str) :
    getScheme ('s' :: '3' :: ':' :: r) = some ([ 's', '3' ], r) := by
  rfl

theorem getScheme_fs (r : Str) :
    getScheme ('f' :: 's' :: ':' :: r) = some ([ 'f', 's' ], r) := by
  rfl

theorem urlSetHostPath_scheme {sch : Str} {fq : Bool} {rq host rest : Str}
    {u : URL} (h : urlSetHostPath sch fq rq host rest = some u) :
    u.scheme = sch := by
  unfold urlSetHostPath at h
  cases hm : unescapeMode UMode.plainM rest with
  | none => rw [hm] at h; cases h
  | some p =>
    simp only [hm] at h
    injection h with h
    subst h
    rfl

theorem parseRest_scheme {sch : Str} {fq : Bool} {rq r1 : Str} {u : URL}
    (h : parseRest sch fq rq r1 = some u) : u.scheme = sch := by
  unfold parseRest at h
  split at h
  · split at h
    · cases hm : parseAuthority (splitAtChar '/' false (r1.drop 2)).1 with
      | none => rw [hm] at h; cases h
      | some host =>
        simp only [hm] at h
        exact urlSetHostPath_scheme h
    · exact urlSetHostPath_scheme h
  · split at h
    · injection h with h
      subst h
      rfl
    · split at h
      · cases h
      · exact urlSetHostPath_scheme h

theorem parseAfterScheme_scheme {sch r0 : Str} {u : URL}
    (h : parseAfterScheme sch r0 = some u) : u.scheme = sch := by
  unfold parseAfterScheme at h
  split at h
  · exact parseRest_scheme h
  · exact parseRest_scheme h

theorem urlParseNoFrag_scheme {s : Str} {u : URL} {sch rest : Str}
    (hg : getScheme s = some (sch, rest)) (hstar : s ≠ [ '*' ])
    (h : urlParseNoFrag s = some u) : u.scheme = asciiToLower sch := by
  unfold urlParseNoFrag at h
  simp only [hg] at h
  split at h
  · cases h
  · exact parseAfterScheme_scheme h

theorem urlParse_fs_scheme (X : Str) (u : URL)
    (h : urlParse ([ 'f', 's', ':', '/', '/' ] ++ X) = some u) :
    u.scheme = [ 'f', 's' ] := by
  have hsplit : splitAtChar '#' true ([ 'f', 's', ':', '/', '/' ] ++ X) =
      ([ 'f', 's', ':', '/', '/' ] ++ (splitAtChar '#' true X).1,
        (splitAtChar '#' true X).2) :=
    splitAtChar_append '#' true _ X (by decide)
  unfold urlParse at h
  rw [hsplit] at h
  cases hn : urlParseNoFrag
      ([ 'f', 's', ':', '/', '/' ] ++ (splitAtChar '#' true X).1) with
  | none => rw [hn] at h; cases h
  | some u' =>
    have hg : getScheme
        ([ 'f', 's', ':', '/', '/' ] ++ (splitAtChar '#' true X).1) =
        some ([ 'f', 's' ], '/' :: '/' :: (splitAtChar '#' true X).1) :=
      getScheme_fs ('/' :: '/' :: (splitAtChar '#' true X).1)
    have hstar : ([ 'f', 's', ':', '/', '/' ] ++ (splitAtChar '#' true X).1)
        ≠ [ '*' ] := by simp
    have hsch : u'.scheme = [ 'f', 's' ] :=
      urlParseNoFrag_scheme hg hstar hn
    simp only [hn] at h
    split at h
    · injection h with h
      subst h
      exact hsch
    · cases hm : unescapeMode UMode.plainM (splitAtChar '#' true X).2 with
      | none => rw [hm] at h; cases h
      | some f =>
        simp only [hm] at h
        injection h with h
        subst h
        exact hsch

/-- C2 (counterexample): the claim says resolving `"fs://" ++ X` succeeds
for every `X`, but for `X = " "` the code first runs `url.Parse`, which
rejects the space in the authority, and `parseConn` returns that error. -/
theorem claim_C2_counterexample :
    parseConn ([ 'f', 's', ':', '/', '/' ] ++ [ ' ' ]) = none := by decide

/-- C2 (amended): for every string `X` such that `url.Parse` accepts
`"fs://" ++ X`, the resolver returns kind `Filesystem` and path exactly
`X` (the remainder after the scheme prefix, with no normalization); when
`url.Parse` rejects the string, the resolver fails with that error. -/
theorem claim_C2 (X : Str) (u : URL)
    (h : urlParse ([ 'f', 's', ':', '/', '/' ] ++ X) = some u) :
    parseConn ([ 'f', 's', ':', '/', '/' ] ++ X) =
      some { type' := StorageType.TypeFS, Bucket := [], Path := X } := by
  have hsch := urlParse_fs_scheme X u h
  unfold parseConn
  simp only [h, hsch]
  rw [if_pos trivial, trimPref_append, if_neg (by decide)]

/-- Witness for C2 at `X = "data/dir"`. -/
theorem claim_C2_witness :
    parseConn ([ 'f', 's', ':', '/', '/' ] ++ ("data/dir").toList) =
      some { type' := StorageType.TypeFS, Bucket := [],
             Path := ("data/dir").toList } :=
  claim_C2 (("data/dir").toList)
    { scheme := [ 'f', 's' ], opaque' := [], host := ("data").toList,
      path := ("/dir").toList, forceQuery := false, rawQuery := [],
      fragment := [] }
    (by decide)

/-- C3 (counterexample): the claim says every endpoint string without a
recognized scheme resolves to a Filesystem descriptor with the path
unchanged, including strings that fail URI parsing; but the plain
filesystem path `/data/100%` fails `url.Parse` (bad percent escape) and
`parseConn` returns the error instead of succeeding. -/
theorem claim_C3_counterexample :
    parseConn (("/data/100%").toList) = none := by decide

/-- C3 (amended): for every endpoint string that `url.Parse` accepts and
whose scheme is neither `s3` nor `fs`, the resolver returns kind
`Filesystem` with the original string unchanged as the path; strings
that fail URI parsing make the resolver return the parse error. -/
theorem claim_C3 (s : Str) (u : URL) (h : urlParse s = some u)
    (h1 : u.scheme ≠ [ 's', '3' ]) (h2 : u.scheme ≠ [ 'f', 's' ]) :
    parseConn s =
      some { type' := StorageType.TypeFS, Bucket := [], Path := s } := by
  unfold parseConn
  simp only [h, if_neg h1, if_neg h2]

/-- Witness for C3 at the bare path `/data/dir`. -/
theorem claim_C3_witness :
    parseConn (("/data/dir").toList) =
      some { type' := StorageType.TypeFS, Bucket := [],
             Path := ("/data/dir").toList } :=
  claim_C3 (("/data/dir").toList)
    { scheme := [], opaque' := [], host := [],
      path := ("/data/dir").toList, forceQuery := false, rawQuery := [],
      fragment := [] }
    (by decide) (by decide) (by decide)

/-- C7 (counterexample): the claim's invariant says an `ObjectStore`
descriptor always has a non-empty bucket, but resolving `s3://` succeeds
and yields an `ObjectStore` descriptor whose bucket is empty. -/
theorem claim_C7_counterexample :
    parseConn ([ 's', '3', ':', '/', '/' ]) =
      some { type' := StorageType.TypeS3, Bucket := [], Path := [] } := by
  decide

/-- C7 (amended): every descriptor produced by successful resolution with
kind `Filesystem` has an empty bucket; for kind `ObjectStore` the bucket
is the URI authority, which the resolver does not require to be
non-empty. -/
theorem claim_C7 (s : Str) (c : connect) (h : parseConn s = some c)
    (hfs : c.type' = StorageType.TypeFS) : c.Bucket = [] := by
  unfold parseConn at h
  cases hu : urlParse s with
  | none => rw [hu] at h; cases h
  | some u =>
    simp only [hu] at h
    split at h
    · injection h with h
      subst h
      simp at hfs
    · split at h
      · injection h with h
        subst h
        rfl
      · injection h with h
        subst h
        rfl

/-- Witness for C7 at the bare path `/tmp`. -/
theorem claim_C7_witness :
    (({ type' := StorageType.TypeFS, Bucket := [],
        Path := ("/tmp").toList } : connect)).Bucket = [] :=
  claim_C7 (("/tmp").toList)
    { type' := StorageType.TypeFS, Bucket := [], Path := ("/tmp").toList }
    (by decide) rfl

/-- C1: for every endpoint string of the form `s3://bucket/path` (any
bucket over host characters, any path free of control characters and of
`% ? #`), the resolver returns kind `ObjectStore`, bucket equal to the
URI authority, and path equal to the URI path with exactly one leading
`/` stripped.  Since the URI path here is `'/' :: path`, the result path
is `path` itself; in particular when `path` starts with `/` (an endpoint
`s3://bucket//x`), exactly one separator is stripped and one `/` is
kept. -/
theorem claim_C1 (bucket path : Str)
    (hb : ∀ c ∈ bucket, isPlainHostChar c = true)
    (hp : ∀ c ∈ path, isPlainPathChar c = true) :
    parseConn ([ 's', '3', ':', '/', '/' ] ++ bucket ++ '/' :: path) =
      some { type' := StorageType.TypeS3, Bucket := bucket, Path := path } := by
  have hpfacts : ∀ c ∈ path, ctlChar c = false ∧ c ≠ '%' ∧ c ≠ '?' ∧ c ≠ '#' :=
    fun c hc => plainPath_facts (hp c hc)
  have hSb : '/' ∉ bucket := not_mem_of_plainHost hb '/' (by decide)
  have hmem : ∀ x : Char,
      x ∈ ([ 's', '3', ':', '/', '/' ] ++ bucket ++ '/' :: path) →
      x ∈ ([ 's', '3', ':', '/', '/' ] : Str) ∨ x ∈ bucket ∨ x = '/' ∨
        x ∈ path := by
    intro x hx
    rcases List.mem_append.mp hx with h1 | h1
    · rcases List.mem_append.mp h1 with h2 | h2
      · exact Or.inl h2
      · exact Or.inr (Or.inl h2)
    · rcases List.mem_cons.mp h1 with h3 | h3
      · exact Or.inr (Or.inr (Or.inl h3))
      · exact Or.inr (Or.inr (Or.inr h3))
  have hsub : ∀ x : Char, x ∈ ('/' :: '/' :: (bucket ++ '/' :: path)) →
      x = '/' ∨ x ∈ bucket ∨ x ∈ path := by
    intro x hx
    rcases List.mem_cons.mp hx with h | h
    · exact Or.inl h
    rcases List.mem_cons.mp h with h | h
    · exact Or.inl h
    rcases List.mem_append.mp h with h | h
    · exact Or.inr (Or.inl h)
    rcases List.mem_cons.mp h with h | h
    · exact Or.inl h
    · exact Or.inr (Or.inr h)
  have hHash : '#' ∉ ([ 's', '3', ':', '/', '/' ] ++ bucket ++ '/' :: path) := by
    intro hm
    rcases hmem '#' hm with h | h | h | h
    · exact absurd h (by decide)
    · exact not_mem_of_plainHost hb '#' (by decide) h
    · exact absurd h (by decide)
    · exact (hpfacts _ h).2.2.2 rfl
  have hQ : '?' ∉ ('/' :: '/' :: (bucket ++ '/' :: path)) := by
    intro hm
    rcases hsub '?' hm with h | h | h
    · exact absurd h (by decide)
    · exact not_mem_of_plainHost hb '?' (by decide) h
    · exact (hpfacts _ h).2.2.1 rfl
  have hPctP : '%' ∉ ('/' :: path) := by
    intro hm
    rcases List.mem_cons.mp hm with h | h
    · exact absurd h (by decide)
    · exact (hpfacts _ h).2.1 rfl
  have hctl : stringContainsCTLByte
      ([ 's', '3', ':', '/', '/' ] ++ bucket ++ '/' :: path) = false := by
    simp only [stringContainsCTLByte, List.any_eq_false]
    intro c hc
    rcases hmem c hc with h | h | h | h
    · fin_cases h <;> decide
    · simp [plainHost_ctl (hb c h)]
    · subst h; decide
    · simp [(hpfacts _ h).1]
  have hg : getScheme ([ 's', '3', ':', '/', '/' ] ++ bucket ++ '/' :: path) =
      some ([ 's', '3' ], '/' :: '/' :: (bucket ++ '/' :: path)) :=
    getScheme_s3 ('/' :: '/' :: (bucket ++ '/' :: path))
  have hsplit2 : splitAtChar '/' false (bucket ++ '/' :: path) =
      (bucket, '/' :: path) := by
    rw [splitAtChar_append '/' false bucket ('/' :: path) hSb]
    simp [splitAtChar]
  have hauth : parseAuthority bucket = some bucket :=
    parseAuthority_plain bucket hb
  have hpath : unescapeMode UMode.plainM ('/' :: path) = some ('/' :: path) :=
    unescape_plain_id _ hPctP
  have hrest : parseRest [ 's', '3' ] false []
      ('/' :: '/' :: (bucket ++ '/' :: path)) =
      some { scheme := [ 's', '3' ], opaque' := [], host := bucket,
             path := '/' :: path, forceQuery := false, rawQuery := [],
             fragment := [] } := by
    unfold parseRest
    rw [if_pos (show isPref [ '/' ] ('/' :: '/' :: (bucket ++ '/' :: path)) =
          true from rfl)]
    rw [if_pos (show ((!decide (([ 's', '3' ] : Str) = []) ||
          !isPref [ '/', '/', '/' ] ('/' :: '/' :: (bucket ++ '/' :: path))) &&
          isPref [ '/', '/' ] ('/' :: '/' :: (bucket ++ '/' :: path))) =
          true from rfl)]
    simp only [List.drop_succ_cons, List.drop_zero, hsplit2, hauth]
    unfold urlSetHostPath
    rw [hpath]
  have hsuf : hasSuffixChar ('/' :: '/' :: (bucket ++ '/' :: path)) '?' = false :=
    hasSuffixChar_not_mem _ _ hQ
  have hafter : parseAfterScheme [ 's', '3' ]
      ('/' :: '/' :: (bucket ++ '/' :: path)) =
      some { scheme := [ 's', '3' ], opaque' := [], host := bucket,
             path := '/' :: path, forceQuery := false, rawQuery := [],
             fragment := [] } := by
    unfold parseAfterScheme
    rw [if_neg (by simp [hsuf])]
    simp only [splitAtChar_not_mem '?' true _ hQ]
    exact hrest
  have hnof : urlParseNoFrag ([ 's', '3', ':', '/', '/' ] ++ bucket ++ '/' :: path) =
      some { scheme := [ 's', '3' ], opaque' := [], host := bucket,
             path := '/' :: path, forceQuery := false, rawQuery := [],
             fragment := [] } := by
    unfold urlParseNoFrag
    simp only [hg]
    split
    · next hx => rw [hctl] at hx; exact absurd hx (by decide)
    · rw [if_neg (show ¬([ 's', '3', ':', '/', '/' ] ++ bucket ++
          '/' :: path = [ '*' ]) from fun he => by
            injection he with h1 h2
            exact absurd h1 (by decide))]
      have hlow : asciiToLower [ 's', '3' ] = [ 's', '3' ] := by decide
      rw [hlow]
      exact hafter
  have hu : urlParse ([ 's', '3', ':', '/', '/' ] ++ bucket ++ '/' :: path) =
      some { scheme := [ 's', '3' ], opaque' := [], host := bucket,
             path := '/' :: path, forceQuery := false, rawQuery := [],
             fragment := [] } := by
    unfold urlParse
    simp only [splitAtChar_not_mem '#' true _ hHash]
    simp only [hnof]
    rfl
  unfold parseConn
  simp only [hu]
  rw [if_pos trivial]
  have htrim : trimPref ('/' :: path) [ '/' ] = path := by
    simp [trimPref, isPref]
  rw [htrim]

/-- Witness for C1 at `s3://bucket/path`. -/
theorem claim_C1_witness :
    parseConn ([ 's', '3', ':', '/', '/' ] ++ ("bucket").toList ++
        '/' :: ("path").toList) =
      some { type' := StorageType.TypeS3, Bucket := ("bucket").toList,
             Path := ("path").toList } :=
  claim_C1 (("bucket").toList) (("path").toList) (by decide) (by decide)

theorem trimSpace_all_space (s : Str) (h : ∀ c ∈ s, goIsSpace c = true) :
    trimSpace s = [] := by
  unfold trimSpace
  have h1 : s.dropWhile goIsSpace = [] := by
    rw [List.dropWhile_eq_nil_iff]
    intro x hx
    simp [h x hx]
  simp [h1]

/-- C4: the bandwidth parser meets the spec's test vectors. -/
theorem claim_C4 :
    parseBandwith ([] : Str) = (0, true) ∧
    parseBandwith (("100").toList) = (100, true) ∧
    parseBandwith (("10K").toList) = (10240, true) ∧
    parseBandwith (("1M").toList) = (1048576, true) ∧
    parseBandwith (("2G").toList) = (2147483648, true) ∧
    (parseBandwith (("10X").toList)).2 = false := by
  exact ⟨by decide, by decide, by decide, by decide, by decide, by decide⟩

/-- C5 (counterexample): the claim says a whitespace-only input such as
`"  "` parses to `(0, true)`; the code trims it to `""`, accumulates no
digits, and `strconv.Atoi("")` fails, so the result is `(0, false)`. -/
theorem claim_C5_counterexample :
    parseBandwith (("  ").toList) = (0, false) := by decide

/-- C5 (amended): the empty string parses to `(0, true)`, but every
non-empty input consisting only of whitespace parses to `(0, false)`. -/
theorem claim_C5 (s : Str) (hne : s ≠ [])
    (hsp : ∀ c ∈ s, goIsSpace c = true) :
    parseBandwith s = (0, false) := by
  unfold parseBandwith
  rw [if_neg hne, trimSpace_all_space s hsp]
  rfl

/-- Witness for C5 at the two-space string. -/
theorem claim_C5_witness : parseBandwith (("  ").toList) = (0, false) :=
  claim_C5 (("  ").toList) (by decide) (by decide)

/-- C10: the final scaling of the bandwidth parser is unchecked 64-bit
machine multiplication: `"9000000000000000000K"` is grammatically valid,
its digits parse within `int64` range, and the parser reports success
with the wrapped, negative product instead of failing or returning the
exact value `9000000000000000000 * 1024`. -/
theorem claim_C10 :
    parseBandwith (("9000000000000000000K").toList) =
      (-7372036854775808000, true) ∧
    (-7372036854775808000 : Int) < 0 ∧
    (-7372036854775808000 : Int) ≠ 9000000000000000000 * 1024 := by
  exact ⟨by decide, by decide, by decide⟩

theorem getCliArgsS_ok_inv {raw : args} {env : Env} {cfg : argsParsed}
    (h : (getCliArgsS raw env).1 = Except.ok cfg) :
    aclAllowed raw.S3Acl = true ∧
    parseOnFail raw.OnFail = some cfg.OnFail ∧
    parseBandwith raw.RateLimitBandwidth = (cfg.RateLimitBandwidth, true) ∧
    parseConn raw.Source = some cfg.Source ∧
    parseConn raw.Target = some cfg.Target ∧
    (raw.ShowProgress && !env.isTTY) = false ∧
    parseUintBase8 raw.FSFilePerm = some cfg.FSFilePerm ∧
    parseUintBase8 raw.FSDirPerm = some cfg.FSDirPerm ∧
    (raw.FilterModified && raw.FSDisableXattr) = false ∧
    cfg.rawArgs = raw := by
  unfold getCliArgsS at h
  split at h
  · cases h
  next hA =>
    split at h
    · cases h
    next onFail hOF =>
      split at h
      next junk hBW => cases h
      next rate hBW =>
        split at h
        · cases h
        next src hsrc =>
          split at h
          · cases h
          next tgt htgt =>
            split at h
            · cases h
            next hSP =>
              split at h
              · cases h
              next filePerm hFP =>
                split at h
                · cases h
                next dirPerm hDP =>
                  split at h <;> split at h
                  · cases h
                  · next hFM =>
                      injection h with h
                      subst h
                      exact ⟨by simpa using hA, hOF, hBW, hsrc, htgt,
                        by simpa using hSP, hFP, hDP, by simpa using hFM,
                        rfl⟩
                  · cases h
                  · next hFM =>
                      injection h with h
                      subst h
                      exact ⟨by simpa using hA, hOF, hBW, hsrc, htgt,
                        by simpa using hSP, hFP, hDP, by simpa using hFM,
                        rfl⟩

theorem result_env_indep (raw : args) (e1 e2 : Env)
    (h : e1.isTTY = e2.isTTY) :
    (getCliArgsS raw e1).1 = (getCliArgsS raw e2).1 := by
  unfold getCliArgsS
  rw [h]
  repeat' split
  all_goals rfl

theorem tty_preserved (raw : args) (e : Env) :
    ((getCliArgsS raw e).2).isTTY = e.isTTY := by
  unfold getCliArgsS
  repeat' split
  all_goals rfl

/-- C6: the on-failure validator maps exactly `fatal`, `skip` and
`skipmissing` (case-sensitively, with no trimming) to the three enum
values; every other string maps to nothing, and resolution then fails;
moreover a successful resolution's `OnFail` field is exactly the mapped
value. -/
theorem claim_C6 :
    parseOnFail (("fatal").toList) = some onFailAction.onFailFatal ∧
    parseOnFail (("skip").toList) = some onFailAction.onFailSkip ∧
    parseOnFail (("skipmissing").toList) =
      some onFailAction.onFailSkipMissing ∧
    (∀ s : Str, s ≠ ("fatal").toList → s ≠ ("skip").toList →
      s ≠ ("skipmissing").toList → parseOnFail s = none) ∧
    (∀ (raw : args) (env : Env), parseOnFail raw.OnFail = none →
      isOkE (getCliArgsS raw env).1 = false) ∧
    (∀ (raw : args) (env : Env) (cfg : argsParsed),
      (getCliArgsS raw env).1 = Except.ok cfg →
      parseOnFail raw.OnFail = some cfg.OnFail) := by
  refine ⟨by decide, by decide, by decide, ?_, ?_, ?_⟩
  · intro s h1 h2 h3
    unfold parseOnFail
    rw [if_neg h1, if_neg h2, if_neg h3]
  · intro raw env h
    cases hr : (getCliArgsS raw env).1 with
    | error e => rfl
    | ok cfg =>
      have h2 := (getCliArgsS_ok_inv hr).2.1
      rw [h] at h2
      cases h2
  · intro raw env cfg h
    exact (getCliArgsS_ok_inv h).2.1

/-- Witness for C6: the string `bogus` is mapped to nothing. -/
theorem claim_C6_witness : parseOnFail (("bogus").toList) = none :=
  claim_C6.2.2.2.1 (("bogus").toList) (by decide) (by decide) (by decide)

/-- C8 (counterexample): the claim says every raw option set with
modified-only filtering and xattr disabled fails "with the
FilterRequiresXattr error"; but when such an option set also carries an
invalid on-failure value, resolution fails earlier with the on-failure
diagnostic, which is a different error. -/
theorem claim_C8_counterexample :
    (getCliArgsS
      { defaultArgs with
        FilterModified := true,
        FSDisableXattr := true,
        OnFail := ("bogus").toList }
      { isTTY := true, godebug := [] }).1 =
      Except.error cliErr.invalidOnFail ∧
    cliErr.invalidOnFail ≠ cliErr.filterRequiresXattr := by
  exact ⟨rfl, by decide⟩

/-- C8 (amended): whenever modified-only filtering is requested while
xattr storage is disabled, resolution never produces a ResolvedConfig;
and if every validation that runs earlier in the pipeline passes, the
failure is exactly the FilterRequiresXattr error. -/
theorem claim_C8 :
    (∀ (raw : args) (env : Env), raw.FilterModified = true →
      raw.FSDisableXattr = true → isOkE (getCliArgsS raw env).1 = false) ∧
    (∀ (raw : args) (env : Env) (a : onFailAction) (rate : Int)
      (src tgt : connect) (fp dp : Nat), raw.FilterModified = true →
      raw.FSDisableXattr = true → aclAllowed raw.S3Acl = true →
      parseOnFail raw.OnFail = some a →
      parseBandwith raw.RateLimitBandwidth = (rate, true) →
      parseConn raw.Source = some src → parseConn raw.Target = some tgt →
      (raw.ShowProgress && !env.isTTY) = false →
      parseUintBase8 raw.FSFilePerm = some fp →
      parseUintBase8 raw.FSDirPerm = some dp →
      (getCliArgsS raw env).1 = Except.error cliErr.filterRequiresXattr) := by
  constructor
  · intro raw env hFM hX
    cases hr : (getCliArgsS raw env).1 with
    | error e => rfl
    | ok cfg =>
      have h9 := (getCliArgsS_ok_inv hr).2.2.2.2.2.2.2.2.1
      rw [hFM, hX] at h9
      exact absurd h9 (by decide)
  · intro raw env a rate src tgt fp dp hFM hX hA hOF hBW hsrc htgt hSP
      hFP hDP
    simp [getCliArgsS, hA, hOF, hBW, hsrc, htgt, hSP, hFP, hDP, hFM, hX]

/-- Witness for C8 with all earlier validations passing (the defaults)
plus the two flags: resolution fails with FilterRequiresXattr. -/
theorem claim_C8_witness :
    (getCliArgsS
      { defaultArgs with
        FilterModified := true,
        FSDisableXattr := true }
      { isTTY := true, godebug := [] }).1 =
      Except.error cliErr.filterRequiresXattr :=
  claim_C8.2
    { defaultArgs with
      FilterModified := true,
      FSDisableXattr := true }
    { isTTY := true, godebug := [] }
    onFailAction.onFailFatal 0
    { type' := StorageType.TypeFS, Bucket := [], Path := [] }
    { type' := StorageType.TypeFS, Bucket := [], Path := [] }
    420 493 rfl rfl (by decide) (by decide) (by decide) (by decide)
    (by decide) (by decide) (by decide) (by decide)

/-- C9: holding the TTY check fixed, resolution is a pure function of
the raw options: resolving the same raw option set twice in a row, the
second run starting from the environment the first run left behind
(which may carry the `GODEBUG` side effect), yields the identical
result. -/
theorem claim_C9 (raw : args) (e : Env) :
    (getCliArgsS raw ((getCliArgsS raw e).2)).1 = (getCliArgsS raw e).1 :=
  result_env_indep raw _ e (tty_preserved raw e)
